import Mathlib

/-!
# connection-pool: a bounded pool of database connections with per-connection
prepared-statement caching and transaction-scoped query binding

Shallow embedding of `src/connections-pool/src/pqxx-connection-pool.hpp`
(namespace `cp`) and of the usage pattern of `src/connections-pool/src/main.cpp`.

Conventions of the embedding.

* The database client library (`pqxx::connection`, `pqxx::work`) and
  `std::hash` are not part of the repository.  They are parameters: `Database`,
  `Work` and the `hash` field of `Backend`.
* A C++ call that may throw returns `Except String α` (the string is `what()`)
  together with the state it leaves behind.
* `borrow_connection` waits on a condition variable while the queue is empty.
  The embedding returns `none` for "the caller is still waiting".
* Every operation on the pool runs under `connections_mutex`, so a concurrent
  execution is an interleaving of the atomic steps modelled here.
* Objects have identity in C++.  A `connection_manager` carries the index of the
  constructor iteration that created it (`id`); a `basic_transaction` carries the
  identity `self` that `query_manager::transaction_view` refers to.
-/

namespace cp

/-! ## External collaborators -/

deriving instance DecidableEq for Except

/-- Result of a statement: rows of text fields (`pqxx::result`). -/
abbrev pqxx_result := List (List String)

/-- The part of the database engine reached through `pqxx::connection`. -/
structure Database where
  /-- Constructing `pqxx::connection` from a connect string, for the `i`-th time;
  an error is a thrown exception. -/
  connect : String → Nat → Except String Unit
  /-- Outcome of `pqxx::connection::prepare name definition` on a connection whose
  earlier prepare commands are given, oldest first. -/
  prepare : List (String × String) → String → String → Except String Unit

/-- The part of the database engine reached through `pqxx::work`, over an
arbitrary type `τ` of transaction states. -/
structure Work (τ : Type) where
  /-- Constructing `pqxx::work` on a connection. -/
  start : Except String τ
  exec : τ → String → Except String pqxx_result × τ
  exec_prepared : τ → String → List String → Except String pqxx_result × τ
  commit : τ → Except String Unit × τ
  abort : τ → Except String Unit × τ

/-- Everything the header takes from outside the repository. -/
structure Backend (τ : Type) where
  db : Database
  work : Work τ
  /-- The function `std::hash<std::string_view>`; its value is used modulo `2^64`. -/
  hash : String → Nat

/-- Number of values of `size_t`. -/
def SIZE_T_RANGE : Nat := 2 ^ 64

/-- One uppercase hexadecimal digit. -/
def hex_digit (d : Nat) : Char :=
  if d < 10 then Char.ofNat (48 + d) else Char.ofNat (55 + d)

/-- Uppercase hexadecimal digits of `n`, most significant first, at most `fuel`
of them. -/
def hex_digits : Nat → Nat → List Char
  | 0, _ => []
  | fuel + 1, n =>
    if n < 16 then [hex_digit n] else hex_digits fuel (n / 16) ++ [hex_digit (n % 16)]

/-- The text `std::format("{:X}", n)`: uppercase hexadecimal, most significant
digit first, no prefix, no padding; zero is rendered as one digit. -/
def format_X (n : Nat) : String :=
  String.mk (hex_digits (n + 1) n)

/-! ## connection_manager -/

/-- The live connection owned by a handle.  Only the prepare commands issued on
it so far are observable here. -/
structure pqxx_connection where
  issued : List (String × String)
deriving DecidableEq, Repr

/-- Handle of one connection: `prepares` is the set of statement identifiers
already prepared on it. -/
structure connection_manager where
  id : Nat
  prepares : List String
  connection : pqxx_connection
deriving DecidableEq, Repr

/-- Constructor `connection_manager::connection_manager` (line 22) for the object
of identity `id`: the prepared set starts empty. -/
def connection_manager.new (id : Nat) : connection_manager :=
  { id := id, prepares := [], connection := { issued := [] } }

/-- Method `connection_manager::prepare` (lines 26-33). -/
def connection_manager.prepare (D : Database) (m : connection_manager)
    (name definition : String) : Except String Unit × connection_manager :=
  if m.prepares.contains name then
    (.ok (), m)
  else
    let sent : pqxx_connection := { issued := m.connection.issued ++ [(name, definition)] }
    match D.prepare m.connection.issued name definition with
    | .error e => (.error e, { m with connection := sent })
    | .ok () => (.ok (), { m with connection := sent, prepares := List.insert name m.prepares })

/-! ## connection_pool -/

/-- The pool: the queue of handles that are not borrowed, front first. -/
structure connection_pool where
  connections : List connection_manager
deriving DecidableEq, Repr

/-- Parameters of a connection (`connection_options`, lines 13-19); `port` is an
`int16_t`. -/
structure connection_options where
  dbname : String := ""
  user : String := ""
  password : String := ""
  hostaddr : String := ""
  port : Int := 5432
deriving DecidableEq, Repr

/-- The connect string that the constructor of the pool formats (line 46). -/
def connection_options.connect_string (options : connection_options) : String :=
  "dbname = " ++ options.dbname ++ " user = " ++ options.user ++ " password = " ++
    options.password ++ " hostaddr = " ++ options.hostaddr ++ " port = " ++ toString options.port

/-- The constructor loop of `connection_pool` (lines 45-51): `n` iterations
remain, the next one has index `i`, `q` is the queue so far. -/
def connection_pool.open_slots (D : Database) (options : connection_options) :
    Nat → Nat → List connection_manager → Except String (List connection_manager)
  | 0, _, q => .ok q
  | n + 1, i, q =>
    match D.connect options.connect_string i with
    | .error e => .error e
    | .ok () =>
      connection_pool.open_slots D options n (i + 1) (q ++ [connection_manager.new i])

/-- Constructor `connection_pool::connection_pool` (lines 44-52). -/
def connection_pool.new (D : Database) (options : connection_options) :
    Except String connection_pool :=
  match connection_pool.open_slots D options 8 0 [] with
  | .error e => .error e
  | .ok q => .ok { connections := q }

/-- Method `connection_pool::borrow_connection` (lines 54-62); `none` while the
queue is empty. -/
def connection_pool.borrow_connection (pool : connection_pool) :
    Option (connection_manager × connection_pool) :=
  match pool.connections with
  | [] => none
  | manager :: rest => some (manager, { connections := rest })

/-- Method `connection_pool::return_connection` (lines 64-73). -/
def connection_pool.return_connection (pool : connection_pool)
    (manager : connection_manager) : connection_pool :=
  { connections := pool.connections ++ [manager] }

/-! ## basic_connection -/

/-- A scoped borrow: it holds the handle it took from the pool. -/
structure basic_connection where
  manager : connection_manager
deriving DecidableEq, Repr

/-- Constructor `basic_connection::basic_connection` (lines 82-84). -/
def basic_connection.new (pool : connection_pool) :
    Option (basic_connection × connection_pool) :=
  match pool.borrow_connection with
  | none => none
  | some (manager, pool1) => some ({ manager := manager }, pool1)

/-- Destructor `basic_connection::~basic_connection` (lines 86-88). -/
def basic_connection.destroy (c : basic_connection) (pool : connection_pool) :
    connection_pool :=
  pool.return_connection c.manager

/-- Method `basic_connection::prepare` (lines 98-100). -/
def basic_connection.prepare (D : Database) (c : basic_connection)
    (name definition : String) : Except String Unit × basic_connection :=
  match c.manager.prepare D name definition with
  | (r, m) => (r, { manager := m })

/-! ## Query descriptors -/

/-- Binding of a descriptor to a transaction scope (`query_manager`, lines
110-119): `transaction_view` is the identity of the scope it refers to. -/
structure query_manager where
  query_id : String
  transaction_view : Nat
deriving DecidableEq, Repr

/-- Anonymous query descriptor (`query`, lines 121-155). -/
structure query where
  str : String
  manager : Option query_manager
deriving DecidableEq, Repr

/-- Named query descriptor (`named_query`, lines 157-165). -/
structure named_query extends query where
  name : String
deriving DecidableEq, Repr

/-- Constructor `query::query(std::string_view)`: the descriptor starts unbound. -/
def query.new (str : String) : query :=
  { str := str, manager := none }

/-- Constructor `named_query::named_query(name, str)`. -/
def named_query.new (name str : String) : named_query :=
  { str := str, manager := none, name := name }

/-- One element of the pack `Queries&&...`: overload resolution sends a `query`
to `prepare_one(const query&)` and a `named_query` to
`prepare_one(const named_query&)`. -/
inductive descriptor where
  | plain (q : query)
  | named (q : named_query)
deriving DecidableEq, Repr

/-- The `query` base object of a descriptor. -/
def descriptor.base : descriptor → query
  | .plain q => q
  | .named q => q.toquery

/-! ## basic_transaction -/

/-- A transaction scope (`basic_transaction`, lines 167-205). -/
structure basic_transaction (τ : Type) where
  self : Nat
  connection : basic_connection
  transaction : τ
deriving DecidableEq, Repr

/-- The local `query_id` of `prepare_one(const query&)` (line 169):
`std::format("{:X}", std::hash<std::string_view>()(q))`. -/
def basic_transaction.query_id {τ : Type} (B : Backend τ) (q : query) : String :=
  format_X (B.hash q.str % SIZE_T_RANGE)

/-- Both overloads of `basic_transaction::prepare_one` (lines 168-177).  The
descriptor is bound only after `connection.prepare` has returned. -/
def basic_transaction.prepare_one {τ : Type} (B : Backend τ) (t : basic_transaction τ) :
    descriptor → Except String Unit × basic_transaction τ × descriptor
  | .plain q =>
    let query_id := basic_transaction.query_id B q
    match t.connection.prepare B.db query_id q.str with
    | (.error e, c) => (.error e, { t with connection := c }, .plain q)
    | (.ok (), c) =>
      (.ok (), { t with connection := c },
        .plain { q with manager := some { query_id := query_id, transaction_view := t.self } })
  | .named q =>
    match t.connection.prepare B.db q.name q.str with
    | (.error e, c) => (.error e, { t with connection := c }, .named q)
    | (.ok (), c) =>
      (.ok (), { t with connection := c },
        .named { q with manager := some { query_id := q.name, transaction_view := t.self } })

/-- Method `basic_transaction::prepare` (lines 179-182): the fold
`(prepare_one(queries), ...)` runs left to right and stops at the first throw. -/
def basic_transaction.prepare {τ : Type} (B : Backend τ) (t : basic_transaction τ) :
    List descriptor → Except String Unit × basic_transaction τ × List descriptor
  | [] => (.ok (), t, [])
  | q :: rest =>
    match t.prepare_one B q with
    | (.error e, t1, q1) => (.error e, t1, q1 :: rest)
    | (.ok (), t1, q1) =>
      match basic_transaction.prepare B t1 rest with
      | (r, t2, rest1) => (r, t2, q1 :: rest1)

/-- Destructor of `basic_transaction`: the members are destroyed in reverse
order, `transaction` first (inside the client library), then `connection`. -/
def basic_transaction.destroy {τ : Type} (t : basic_transaction τ) (pool : connection_pool) :
    connection_pool :=
  t.connection.destroy pool

/-- Constructor `basic_transaction::basic_transaction` (lines 184-187) for the
object of identity `self`.  The result is `none` while `borrow_connection`
waits.  Otherwise it is the constructed scope or the exception thrown, the pool
afterwards, and the descriptors afterwards.  When the initialiser of
`transaction` or the body throws, the members constructed so far are destroyed,
so `~basic_connection` runs. -/
def basic_transaction.new {τ : Type} (B : Backend τ) (self : Nat) (pool : connection_pool)
    (queries : List descriptor) :
    Option (Except String (basic_transaction τ) × connection_pool × List descriptor) :=
  match basic_connection.new pool with
  | none => none
  | some (connection, pool1) =>
    match B.work.start with
    | .error e => some (.error e, connection.destroy pool1, queries)
    | .ok transaction =>
      let t : basic_transaction τ :=
        { self := self, connection := connection, transaction := transaction }
      match t.prepare B queries with
      | (.error e, t1, queries1) => some (.error e, t1.destroy pool1, queries1)
      | (.ok (), t1, queries1) => some (.ok t1, pool1, queries1)

/-- The identifier under which `prepare_one` prepares a descriptor. -/
def descriptor.identifier {τ : Type} (B : Backend τ) : descriptor → String
  | .plain q => basic_transaction.query_id B q
  | .named q => q.name

/-- The descriptor after `manager.emplace(scope, identifier)`. -/
def descriptor.emplace (qm : query_manager) : descriptor → descriptor
  | .plain q => .plain { q with manager := some qm }
  | .named q => .named { q with manager := some qm }

/-- Function `cp::tx` (lines 212-215). -/
def tx {τ : Type} (B : Backend τ) (self : Nat) (pool : connection_pool)
    (queries : List descriptor) :
    Option (Except String (basic_transaction τ) × connection_pool × List descriptor) :=
  basic_transaction.new B self pool queries

/-- Method `basic_transaction::exec` (line 192). -/
def basic_transaction.exec {τ : Type} (B : Backend τ) (t : basic_transaction τ) (q : String) :
    Except String pqxx_result × basic_transaction τ :=
  match B.work.exec t.transaction q with
  | (r, w) => (r, { t with transaction := w })

/-- Method `basic_transaction::commit` (line 193). -/
def basic_transaction.commit {τ : Type} (B : Backend τ) (t : basic_transaction τ) :
    Except String Unit × basic_transaction τ :=
  match B.work.commit t.transaction with
  | (r, w) => (r, { t with transaction := w })

/-- Method `basic_transaction::abort` (line 194). -/
def basic_transaction.abort {τ : Type} (B : Backend τ) (t : basic_transaction τ) :
    Except String Unit × basic_transaction τ :=
  match B.work.abort t.transaction with
  | (r, w) => (r, { t with transaction := w })

/-- Method `query_manager::exec_prepared` (lines 207-210); `t` is the scope that
`transaction_view` refers to. -/
def query_manager.exec_prepared {τ : Type} (B : Backend τ) (qm : query_manager)
    (args : List String) (t : basic_transaction τ) :
    Except String pqxx_result × basic_transaction τ :=
  match B.work.exec_prepared t.transaction qm.query_id args with
  | (r, w) => (r, { t with transaction := w })

/-- Method `query::exec` (lines 141-147); `t` is the scope that the binding, when
there is one, refers to. -/
def query.exec {τ : Type} (B : Backend τ) (q : query) (args : List String)
    (t : basic_transaction τ) : Except String pqxx_result × basic_transaction τ :=
  match q.manager with
  | none => (.error "attempt to execute a query without connection with a transaction", t)
  | some qm => qm.exec_prepared B args t

/-- Method `query::operator()` (lines 136-139). -/
def query.call {τ : Type} (B : Backend τ) (q : query) (args : List String)
    (t : basic_transaction τ) : Except String pqxx_result × basic_transaction τ :=
  q.exec B args t

/-- The inherited `exec` of a `named_query`. -/
def named_query.exec {τ : Type} (B : Backend τ) (q : named_query) (args : List String)
    (t : basic_transaction τ) : Except String pqxx_result × basic_transaction τ :=
  q.toquery.exec B args t

/-- The inherited `operator()` of a `named_query`. -/
def named_query.call {τ : Type} (B : Backend τ) (q : named_query) (args : List String)
    (t : basic_transaction τ) : Except String pqxx_result × basic_transaction τ :=
  q.toquery.call B args t

/-! ## A unit of work: the block around a transaction scope -/

/-- One call made on a scope while it is alive: the three methods of
`basic_transaction`, or the invocation of a query bound to it. -/
inductive scope_call where
  | exec (q : String)
  | commit
  | abort
  | invoke (qm : query_manager) (args : List String)
deriving DecidableEq, Repr

/-- Runs one call on the scope; the result of a statement is dropped. -/
def basic_transaction.call {τ : Type} (B : Backend τ) (t : basic_transaction τ) :
    scope_call → Except String Unit × basic_transaction τ
  | .exec q =>
    match t.exec B q with
    | (.error e, t1) => (.error e, t1)
    | (.ok _, t1) => (.ok (), t1)
  | .commit => t.commit B
  | .abort => t.abort B
  | .invoke qm args =>
    match qm.exec_prepared B args t with
    | (.error e, t1) => (.error e, t1)
    | (.ok _, t1) => (.ok (), t1)

/-- Runs the calls in order; the first exception leaves the block. -/
def basic_transaction.calls {τ : Type} (B : Backend τ) (t : basic_transaction τ) :
    List scope_call → Except String Unit × basic_transaction τ
  | [] => (.ok (), t)
  | c :: rest =>
    match t.call B c with
    | (.error e, t1) => (.error e, t1)
    | (.ok (), t1) => basic_transaction.calls B t1 rest

/-- The block `try { auto tx = cp::tx(pool, queries...); body } catch ...` of
`insert_user`, `read_users` and `main`, for an arbitrary sequence of calls as
body.  The scope is destroyed when the block is left, by normal completion or
by an exception.  The result is `none` while `borrow_connection` waits. -/
def unit_of_work {τ : Type} (B : Backend τ) (self : Nat) (pool : connection_pool)
    (queries : List descriptor) (body : List scope_call) :
    Option (Except String Unit × connection_pool × List descriptor) :=
  match tx B self pool queries with
  | none => none
  | some (.error e, pool1, queries1) => some (.error e, pool1, queries1)
  | some (.ok t, pool1, queries1) =>
    match t.calls B body with
    | (r, t1) => some (r, t1.destroy pool1, queries1)

/-! ## The pool and its borrowers as a transition system -/

/-- The pool together with the scoped borrows that are alive. -/
structure pool_state where
  pool : connection_pool
  live : List basic_connection
deriving DecidableEq, Repr

/-- One atomic step: a borrower is constructed, the live borrower at position
`i` is destroyed, or the live borrower at position `i` prepares a statement. -/
inductive pool_op where
  | borrow
  | release (i : Nat)
  | prepare (i : Nat) (name definition : String)
deriving DecidableEq, Repr

/-- Effect of one step; `none` when the step cannot take place (the queue is
empty and the borrower waits, or there is no live borrower at position `i`). -/
def pool_state.step (D : Database) (s : pool_state) : pool_op → Option pool_state
  | .borrow =>
    match basic_connection.new s.pool with
    | none => none
    | some (c, pool1) => some { pool := pool1, live := s.live ++ [c] }
  | .release i =>
    match s.live[i]? with
    | none => none
    | some c => some { pool := c.destroy s.pool, live := s.live.eraseIdx i }
  | .prepare i name definition =>
    match s.live[i]? with
    | none => none
    | some c => some { pool := s.pool, live := s.live.set i (c.prepare D name definition).2 }

/-- Effect of a finite sequence of steps. -/
def pool_state.run (D : Database) (s : pool_state) : List pool_op → Option pool_state
  | [] => some s
  | op :: rest =>
    match s.step D op with
    | none => none
    | some s1 => pool_state.run D s1 rest

/-- Identities of all handles of a state: the queue, then the live borrowers. -/
def pool_state.handles (s : pool_state) : List Nat :=
  s.pool.connections.map connection_manager.id ++ s.live.map (fun c => c.manager.id)

/-! ## Sample collaborators -/

/-- States of a transaction of the client library. -/
inductive work_status where
  | active
  | committed
  | aborted
deriving DecidableEq, Repr

/-- A transaction that refuses to commit after an abort, to abort after a commit
and to execute once finished, and that accepts a repeated commit and a repeated
abort without an error. -/
def sample_work : Work work_status where
  start := .ok .active
  exec := fun w _ =>
    match w with
    | .active => (.ok [], .active)
    | w => (.error "transaction is not active", w)
  exec_prepared := fun w _ _ =>
    match w with
    | .active => (.ok [], .active)
    | w => (.error "transaction is not active", w)
  commit := fun w =>
    match w with
    | .aborted => (.error "attempt to commit previously aborted transaction", .aborted)
    | _ => (.ok (), .committed)
  abort := fun w =>
    match w with
    | .committed => (.error "attempt to abort previously committed transaction", .committed)
    | _ => (.ok (), .aborted)

/-- A database that opens every connection and accepts a prepare command unless
the definition is empty. -/
def sample_db : Database where
  connect := fun _ _ => .ok ()
  prepare := fun _ _ definition =>
    if definition = "" then .error "syntax error at end of input" else .ok ()

/-- A backend made of `sample_db`, `sample_work` and the length of the text as
hash function. -/
def sample_backend : Backend work_status where
  db := sample_db
  work := sample_work
  hash := String.length

/-- The connection parameters of `main` (lines 56-60). -/
def sample_options : connection_options :=
  { dbname := "postgres", user := "postgres", password := "password", hostaddr := "127.0.0.1" }

/-- The pool that the constructor builds on `sample_db`. -/
def sample_pool : connection_pool :=
  { connections := (List.range 8).map connection_manager.new }

/-- State after two borrows, a prepare by the first borrower and its release. -/
def sample_state_one : pool_state :=
  { pool := { connections := (List.range' 2 6).map connection_manager.new ++
      [{ id := 0, prepares := ["a"], connection := { issued := [("a", "SELECT 1")] } }] },
    live := [{ manager := connection_manager.new 1 }] }

/-- State after three borrows and the release of the second borrower. -/
def sample_state_two : pool_state :=
  { pool := { connections := (List.range' 3 5).map connection_manager.new ++
      [connection_manager.new 1] },
    live := [{ manager := connection_manager.new 0 }, { manager := connection_manager.new 2 }] }

/-- Three descriptors; `sample_db` rejects the second, whose text is empty. -/
def sample_queries_failing : List descriptor :=
  [.named (named_query.new "a" "SELECT 1"), .plain (query.new ""),
    .named (named_query.new "c" "SELECT 3")]

/-- The demo descriptors of `main.cpp` in one pack: a named query and an
anonymous one. -/
def sample_queries : List descriptor :=
  [.named (named_query.new "get_users" "SELECT username, role FROM test_users"),
    .plain (query.new "SELECT 1")]

/-- The scope that the constructor builds from `sample_queries` on
`sample_pool`, as the object of identity 7. -/
def sample_scope : basic_transaction work_status :=
  { self := 7,
    connection := { manager :=
      { id := 0, prepares := ["8", "get_users"],
        connection := { issued :=
          [("get_users", "SELECT username, role FROM test_users"), ("8", "SELECT 1")] } } },
    transaction := .active }

/-- The descriptors `sample_queries` once bound to `sample_scope`. -/
def sample_queries_bound : List descriptor :=
  [.named { str := "SELECT username, role FROM test_users", name := "get_users",
            manager := some { query_id := "get_users", transaction_view := 7 } },
    .plain { str := "SELECT 1", manager := some { query_id := "8", transaction_view := 7 } }]

/-- A pool whose queue holds only handle 0, on which the text `SELECT 1` has
been prepared; the other handles are borrowed. -/
def sample_pool_used : connection_pool :=
  { connections :=
      [{ id := 0, prepares := ["8"], connection := { issued := [("8", "SELECT 1")] } }] }

/-- The scope of identity 1 constructed for the text `SELECT 1` on the fresh
handle 0. -/
def sample_scope_first : basic_transaction work_status :=
  { self := 1,
    connection := { manager :=
      { id := 0, prepares := ["8"], connection := { issued := [("8", "SELECT 1")] } } },
    transaction := .active }

/-- The scope of identity 2 constructed for the text `SELECT 1` on handle 0
after `sample_scope_first`. -/
def sample_scope_second : basic_transaction work_status :=
  { self := 2,
    connection := { manager :=
      { id := 0, prepares := ["8"], connection := { issued := [("8", "SELECT 1")] } } },
    transaction := .active }

/-! ## Facts about `format_X` -/

theorem hex_digits_length (fuel n : Nat) (hf : 0 < fuel) (h : n < 16 ^ fuel) :
    (hex_digits fuel n).length = Nat.log 16 n + 1 := by
  induction fuel generalizing n with
  | zero => omega
  | succ fuel ih =>
    unfold hex_digits
    split
    · rename_i hlt
      rw [Nat.log_of_lt hlt]
      rfl
    · rename_i hge
      have hlog : Nat.log 16 n = Nat.log 16 (n / 16) + 1 := by
        rw [Nat.log_div_base]
        have : 1 ≤ Nat.log 16 n := Nat.log_pos (by norm_num) (by omega)
        omega
      have hd : n / 16 < 16 ^ fuel := by
        rw [Nat.div_lt_iff_lt_mul (by norm_num)]
        rw [pow_succ] at h
        exact h
      have hpos : 0 < fuel := by
        rcases Nat.eq_zero_or_pos fuel with h0 | h0
        · rw [h0] at hd
          omega
        · exact h0
      rw [List.length_append, ih _ hpos hd, hlog]
      rfl

theorem format_X_length (n : Nat) : (format_X n).length = Nat.log 16 n + 1 := by
  unfold format_X
  simp only [String.length]
  have h1 : n + 1 < 16 ^ (n + 1) := Nat.lt_pow_self (by norm_num) (n + 1)
  exact hex_digits_length (n + 1) n (Nat.succ_pos n) (by omega)

theorem format_X_length_le (n : Nat) (h : n < 2 ^ 64) : (format_X n).length ≤ 16 := by
  rw [format_X_length]
  have : Nat.log 16 n < 16 := by
    rcases Nat.eq_zero_or_pos n with h0 | h0
    · simp [h0]
    · apply Nat.log_lt_of_lt_pow (by omega)
      calc n < 2 ^ 64 := h
        _ = 16 ^ 16 := by norm_num
  omega

/-! ## Facts about `connection_manager::prepare` -/

theorem connection_manager.prepare_id (D : Database) (m : connection_manager)
    (name definition : String) : (m.prepare D name definition).2.id = m.id := by
  unfold connection_manager.prepare
  split
  · rfl
  · dsimp only
    split <;> rfl

theorem connection_manager.prepare_known (D : Database) (m : connection_manager)
    (name definition : String) (h : name ∈ m.prepares) :
    m.prepare D name definition = (.ok (), m) := by
  unfold connection_manager.prepare
  simp [h]

theorem connection_manager.prepare_fresh (D : Database) (m : connection_manager)
    (name definition : String) (h : name ∉ m.prepares) :
    m.prepare D name definition =
      match D.prepare m.connection.issued name definition with
      | .error e =>
        (.error e, { m with connection := { issued := m.connection.issued ++ [(name, definition)] } })
      | .ok () =>
        (.ok (), { m with connection := { issued := m.connection.issued ++ [(name, definition)] },
                          prepares := List.insert name m.prepares }) := by
  unfold connection_manager.prepare
  simp [h]

theorem connection_manager.prepare_mono (D : Database) (m : connection_manager)
    (name definition x : String) (h : x ∈ m.prepares) :
    x ∈ (m.prepare D name definition).2.prepares := by
  by_cases hn : name ∈ m.prepares
  · rw [connection_manager.prepare_known D m name definition hn]; exact h
  · rw [connection_manager.prepare_fresh D m name definition hn]
    split
    · exact h
    · simp [h]

theorem connection_manager.prepare_ok_mem (D : Database) (m : connection_manager)
    (name definition : String) (h : (m.prepare D name definition).1 = .ok ()) :
    name ∈ (m.prepare D name definition).2.prepares := by
  by_cases hn : name ∈ m.prepares
  · rw [connection_manager.prepare_known D m name definition hn]; exact hn
  · rw [connection_manager.prepare_fresh D m name definition hn] at h ⊢
    split at h
    · simp at h
    · rename_i heq
      simp [heq]

/-- C4, as the code has it: when `prepare id sql1` returns without an error, a
following `prepare id sql2` on the same handle returns without an error, issues
no command and leaves the handle as it was; the first call issued exactly the
one command `(id, sql1)` when `id` was not in the prepared set before, and no
command when it was. -/
theorem prepare_twice_issues_at_most_once (D : Database) (m : connection_manager)
    (id sql1 sql2 : String) (h1 : (m.prepare D id sql1).1 = .ok ()) :
    (m.prepare D id sql1).2.prepare D id sql2 = (.ok (), (m.prepare D id sql1).2) ∧
    (id ∉ m.prepares →
      ((m.prepare D id sql1).2.prepare D id sql2).2.connection.issued
        = m.connection.issued ++ [(id, sql1)]) ∧
    (id ∈ m.prepares →
      ((m.prepare D id sql1).2.prepare D id sql2).2.connection.issued
        = m.connection.issued) := by
  have hmem := connection_manager.prepare_ok_mem D m id sql1 h1
  have h2 := connection_manager.prepare_known D _ id sql2 hmem
  refine ⟨h2, ?_, ?_⟩
  · intro hn
    rw [h2]
    rw [connection_manager.prepare_fresh D m id sql1 hn] at h1 ⊢
    split at h1
    · simp at h1
    · rename_i heq
      simp [heq]
  · intro hn
    rw [h2, connection_manager.prepare_known D m id sql1 hn]

/-- Two calls for the identifier `q` on a fresh handle of `sample_db`: the first
returns without an error and the second does nothing. -/
theorem prepare_twice_issues_at_most_once_witness :
    ((({ id := 0, prepares := [], connection := { issued := [] } } :
        connection_manager).prepare sample_db "q" "SELECT 1").1 = .ok ()) ∧
    ((({ id := 0, prepares := [], connection := { issued := [] } } :
        connection_manager).prepare sample_db "q" "SELECT 1").2.prepare sample_db "q" "SELECT 2"
      = (.ok (), (({ id := 0, prepares := [], connection := { issued := [] } } :
        connection_manager).prepare sample_db "q" "SELECT 1").2)) :=
  ⟨by decide,
   (prepare_twice_issues_at_most_once sample_db
      { id := 0, prepares := [], connection := { issued := [] } } "q" "SELECT 1" "SELECT 2"
      (by decide)).1⟩

/-- C4 as stated fails on a handle that has already prepared the identifier:
both calls return without an error and no command at all is issued, not one. -/
theorem prepare_twice_already_prepared_issues_none :
    (({ id := 0, prepares := ["q"], connection := { issued := [("q", "SELECT 0")] } } :
        connection_manager).prepare sample_db "q" "SELECT 1").1 = .ok () ∧
    ((({ id := 0, prepares := ["q"], connection := { issued := [("q", "SELECT 0")] } } :
        connection_manager).prepare sample_db "q" "SELECT 1").2.prepare
          sample_db "q" "SELECT 2").1 = .ok () ∧
    ((({ id := 0, prepares := ["q"], connection := { issued := [("q", "SELECT 0")] } } :
        connection_manager).prepare sample_db "q" "SELECT 1").2.prepare
          sample_db "q" "SELECT 2").2.connection.issued = [("q", "SELECT 0")] := by
  decide

/-- C5: when the identifier is not in the prepared set and the underlying
prepare fails, `connection_manager::prepare` throws that error and the prepared
set is unchanged, so the identifier is not marked; and whenever a call adds an
identifier to the prepared set, it is the one passed and the underlying prepare
succeeded. -/
theorem failed_prepare_leaves_prepared_set (D : Database) (m : connection_manager)
    (name definition e : String) (hn : name ∉ m.prepares)
    (hf : D.prepare m.connection.issued name definition = .error e) :
    (m.prepare D name definition).1 = .error e ∧
    (m.prepare D name definition).2.prepares = m.prepares ∧
    name ∉ (m.prepare D name definition).2.prepares ∧
    (∀ (name1 definition1 x : String),
      x ∈ (m.prepare D name1 definition1).2.prepares → x ∉ m.prepares →
        x = name1 ∧ D.prepare m.connection.issued name1 definition1 = .ok ()) := by
  have hfresh := connection_manager.prepare_fresh D m name definition hn
  rw [hf] at hfresh
  refine ⟨by rw [hfresh], by rw [hfresh], by rw [hfresh]; exact hn, ?_⟩
  intro name1 definition1 x hx hx0
  by_cases h1 : name1 ∈ m.prepares
  · rw [connection_manager.prepare_known D m name1 definition1 h1] at hx
    exact absurd hx hx0
  · rw [connection_manager.prepare_fresh D m name1 definition1 h1] at hx
    split at hx
    · exact absurd hx hx0
    · rename_i heq
      simp at hx
      rcases hx with hx | hx
      · exact ⟨hx, heq⟩
      · exact absurd hx hx0

/-- A failing call on a handle of `sample_db`, which rejects the empty
definition: the error is thrown and the prepared set stays `["a"]`. -/
theorem failed_prepare_leaves_prepared_set_witness :
    (({ id := 3, prepares := ["a"], connection := { issued := [("a", "SELECT 1")] } } :
        connection_manager).prepare sample_db "b" "").1 = .error "syntax error at end of input" ∧
    (({ id := 3, prepares := ["a"], connection := { issued := [("a", "SELECT 1")] } } :
        connection_manager).prepare sample_db "b" "").2.prepares = ["a"] :=
  ⟨(failed_prepare_leaves_prepared_set sample_db
      { id := 3, prepares := ["a"], connection := { issued := [("a", "SELECT 1")] } }
      "b" "" "syntax error at end of input" (by decide) (by decide)).1,
   (failed_prepare_leaves_prepared_set sample_db
      { id := 3, prepares := ["a"], connection := { issued := [("a", "SELECT 1")] } }
      "b" "" "syntax error at end of input" (by decide) (by decide)).2.1⟩

/-! ## Facts about the pool -/

theorem connection_pool.open_slots_ok (D : Database) (options : connection_options) (n i : Nat)
    (q q1 : List connection_manager)
    (h : connection_pool.open_slots D options n i q = .ok q1) :
    q1 = q ++ (List.range' i n).map connection_manager.new := by
  induction n generalizing i q with
  | zero =>
    simp [connection_pool.open_slots] at h
    simp [h]
  | succ n ih =>
    unfold connection_pool.open_slots at h
    split at h
    · simp at h
    · rw [ih _ _ h]
      simp [List.range'_succ]

theorem connection_pool.new_ok (D : Database) (options : connection_options)
    (pool : connection_pool) (h : connection_pool.new D options = .ok pool) :
    pool.connections = (List.range' 0 8).map connection_manager.new := by
  unfold connection_pool.new at h
  split at h
  · simp at h
  · rename_i q hq
    have := connection_pool.open_slots_ok D options 8 0 [] q hq
    simp only [Except.ok.injEq] at h
    rw [← h]
    simpa using this

theorem perm_cons_eraseIdx {α : Type} (l : List α) (i : Nat) (c : α) (h : l[i]? = some c) :
    l.Perm (c :: l.eraseIdx i) := by
  induction l generalizing i with
  | nil => simp at h
  | cons a l ih =>
    cases i with
    | zero =>
      simp at h
      simp [h]
    | succ i =>
      simp at h
      simp only [List.eraseIdx_cons_succ]
      exact (List.Perm.cons a (ih i h)).trans (List.Perm.swap c a _)

theorem map_set_same {α β : Type} (f : α → β) (l : List α) (i : Nat) (c c1 : α)
    (h : l[i]? = some c) (hf : f c1 = f c) : (l.set i c1).map f = l.map f := by
  induction l generalizing i with
  | nil => simp
  | cons a l ih =>
    cases i with
    | zero =>
      simp at h
      simp [h, hf]
    | succ i =>
      simp at h
      simp [ih i h]

theorem pool_state.step_handles (D : Database) (s s1 : pool_state) (op : pool_op)
    (h : s.step D op = some s1) : s1.handles.Perm s.handles := by
  cases op with
  | borrow =>
    simp only [pool_state.step, basic_connection.new, connection_pool.borrow_connection] at h
    cases hq : s.pool.connections with
    | nil => simp [hq] at h
    | cons m rest =>
      simp [hq] at h
      subst h
      simp only [pool_state.handles, hq, List.map_cons, List.map_append, List.map_nil,
        List.cons_append]
      rw [← List.append_assoc]
      exact List.perm_append_singleton _ _
  | release i =>
    simp only [pool_state.step] at h
    cases hc : s.live[i]? with
    | none => simp [hc] at h
    | some c =>
      simp [hc] at h
      subst h
      have hp := (perm_cons_eraseIdx s.live i c hc).map (fun c => c.manager.id)
      simp only [pool_state.handles, basic_connection.destroy,
        connection_pool.return_connection, List.map_append, List.map_cons, List.map_nil,
        List.append_assoc, List.singleton_append]
      exact List.Perm.append_left _ hp.symm
  | prepare i name definition =>
    simp only [pool_state.step] at h
    cases hc : s.live[i]? with
    | none => simp [hc] at h
    | some c =>
      simp [hc] at h
      subst h
      have hid : (c.prepare D name definition).2.manager.id = c.manager.id := by
        simp [basic_connection.prepare, connection_manager.prepare_id]
      simp only [pool_state.handles]
      rw [map_set_same (fun c => c.manager.id) s.live i c _ hc hid]

theorem pool_state.run_handles (D : Database) (s s1 : pool_state) (ops : List pool_op)
    (h : s.run D ops = some s1) : s1.handles.Perm s.handles := by
  induction ops generalizing s with
  | nil =>
    simp [pool_state.run] at h
    rw [h]
  | cons op rest ih =>
    simp only [pool_state.run] at h
    cases hs : s.step D op with
    | none => simp [hs] at h
    | some s2 =>
      simp [hs] at h
      exact (ih s2 h).trans (pool_state.step_handles D s s2 op hs)

theorem pool_state.reachable_handles (D : Database) (options : connection_options)
    (pool0 : connection_pool) (h0 : connection_pool.new D options = .ok pool0)
    (ops : List pool_op) (s : pool_state)
    (hrun : pool_state.run D { pool := pool0, live := [] } ops = some s) :
    s.handles.Perm (List.range 8) := by
  have hp := pool_state.run_handles D _ s ops hrun
  have h8 : (List.range' 0 8).map (fun i => (connection_manager.new i).id) = List.range 8 := by
    decide
  have hq := connection_pool.new_ok D options pool0 h0
  simpa [pool_state.handles, hq, h8] using hp

/-- C1: a freshly constructed pool has 8 handles in its queue; in every state
reached from it by borrow, release and prepare steps the handles in the queue
and the live borrows add up to 8, so at most 8 borrows are outstanding; and
`borrow_connection` yields a handle exactly when the queue is non-empty, namely
its front. -/
theorem pool_capacity_invariant (D : Database) (options : connection_options)
    (pool0 : connection_pool) (h0 : connection_pool.new D options = .ok pool0)
    (ops : List pool_op) (s : pool_state)
    (hrun : pool_state.run D { pool := pool0, live := [] } ops = some s) :
    pool0.connections.length = 8 ∧
    s.pool.connections.length + s.live.length = 8 ∧
    s.live.length ≤ 8 ∧
    (∀ (pool pool1 : connection_pool) (m : connection_manager),
      pool.borrow_connection = some (m, pool1) → pool.connections = m :: pool1.connections) ∧
    (∀ pool : connection_pool, pool.connections = [] ↔ pool.borrow_connection = none) := by
  have hlen := (pool_state.reachable_handles D options pool0 h0 ops s hrun).length_eq
  simp only [pool_state.handles, List.length_append, List.length_map, List.length_range] at hlen
  refine ⟨?_, hlen, by omega, ?_, ?_⟩
  · rw [connection_pool.new_ok D options pool0 h0]
    rfl
  · intro pool pool1 m h
    unfold connection_pool.borrow_connection at h
    split at h
    · simp at h
    · rename_i m1 rest hq
      simp only [Option.some.injEq, Prod.mk.injEq] at h
      rw [hq, ← h.1, ← h.2]
  · intro pool
    unfold connection_pool.borrow_connection
    constructor
    · intro h
      simp [h]
    · intro h
      split at h
      · assumption
      · simp at h

/-- Two borrows, a prepare by the first borrower, then its release, on a pool
of `sample_db`: seven handles in the queue and one live borrow. -/
theorem pool_capacity_invariant_witness :
    connection_pool.new sample_db sample_options = .ok sample_pool ∧
    pool_state.run sample_db { pool := sample_pool, live := [] }
        [.borrow, .borrow, .prepare 0 "a" "SELECT 1", .release 0]
      = some sample_state_one ∧
    sample_state_one.pool.connections.length + sample_state_one.live.length = 8 :=
  ⟨by decide, by decide,
   (pool_capacity_invariant sample_db sample_options sample_pool (by decide)
      [.borrow, .borrow, .prepare 0 "a" "SELECT 1", .release 0]
      sample_state_one (by decide)).2.1⟩

/-- C2: in every state reached from a freshly constructed pool by borrow,
release and prepare steps, where a borrow returns the handle it holds, the
handles in the queue and the handles held by live borrows are pairwise
distinct: no two positions of the live list hold the same handle, and no handle
of the queue is held by a live borrow. -/
theorem exclusive_ownership (D : Database) (options : connection_options)
    (pool0 : connection_pool) (h0 : connection_pool.new D options = .ok pool0)
    (ops : List pool_op) (s : pool_state)
    (hrun : pool_state.run D { pool := pool0, live := [] } ops = some s) :
    s.handles.Nodup ∧
    (s.live.map (fun c => c.manager.id)).Nodup ∧
    (s.pool.connections.map connection_manager.id).Nodup ∧
    (∀ m ∈ s.pool.connections, ∀ c ∈ s.live, m.id ≠ c.manager.id) := by
  have hperm := pool_state.reachable_handles D options pool0 h0 ops s hrun
  have hnd : s.handles.Nodup := (List.Perm.nodup_iff hperm).mpr (List.nodup_range 8)
  have hnd2 := hnd
  unfold pool_state.handles at hnd2
  rw [List.nodup_append] at hnd2
  refine ⟨hnd, hnd2.2.1, hnd2.1, ?_⟩
  intro m hm c hc heq
  have hdis := hnd2.2.2
  exact hdis (List.mem_map_of_mem connection_manager.id hm)
    (heq ▸ List.mem_map_of_mem (fun c => c.manager.id) hc)

/-- Three borrows and the release of the second borrower, on a pool of
`sample_db`: the eight handles are still pairwise distinct. -/
theorem exclusive_ownership_witness :
    connection_pool.new sample_db sample_options = .ok sample_pool ∧
    pool_state.run sample_db { pool := sample_pool, live := [] }
        [.borrow, .borrow, .borrow, .release 1]
      = some sample_state_two ∧
    sample_state_two.handles = [3, 4, 5, 6, 7, 1, 0, 2] ∧
    sample_state_two.handles.Nodup :=
  ⟨by decide, by decide, by decide,
   (exclusive_ownership sample_db sample_options sample_pool (by decide)
      [.borrow, .borrow, .borrow, .release 1] sample_state_two (by decide)).1⟩

/-! ## Facts about the construction of a scope -/

theorem basic_transaction.prepare_one_eq {τ : Type} (B : Backend τ) (t : basic_transaction τ)
    (d : descriptor) :
    t.prepare_one B d =
      match t.connection.manager.prepare B.db (d.identifier B) d.base.str with
      | (.error e, m) => (.error e, { t with connection := { manager := m } }, d)
      | (.ok (), m) =>
        (.ok (), { t with connection := { manager := m } },
          d.emplace { query_id := d.identifier B, transaction_view := t.self }) := by
  cases d with
  | plain q =>
    simp only [basic_transaction.prepare_one, basic_connection.prepare, descriptor.identifier,
      descriptor.base, descriptor.emplace]
    rcases hp : t.connection.manager.prepare B.db (basic_transaction.query_id B q) q.str
      with ⟨r, m⟩
    cases r <;> rfl
  | named q =>
    simp only [basic_transaction.prepare_one, basic_connection.prepare, descriptor.identifier,
      descriptor.base, descriptor.emplace]
    rcases hp : t.connection.manager.prepare B.db q.name q.str with ⟨r, m⟩
    cases r <;> rfl

/-- What `prepare_one` keeps and what it establishes. -/
theorem basic_transaction.prepare_one_spec {τ : Type} (B : Backend τ) (t : basic_transaction τ)
    (d : descriptor) :
    (t.prepare_one B d).2.1.self = t.self ∧
    (t.prepare_one B d).2.1.transaction = t.transaction ∧
    (t.prepare_one B d).2.1.connection.manager
      = (t.connection.manager.prepare B.db (d.identifier B) d.base.str).2 ∧
    (t.prepare_one B d).1 = (t.connection.manager.prepare B.db (d.identifier B) d.base.str).1 ∧
    ((t.prepare_one B d).1 = .ok () →
      (t.prepare_one B d).2.2
        = d.emplace { query_id := d.identifier B, transaction_view := t.self }) ∧
    (∀ e, (t.prepare_one B d).1 = .error e → (t.prepare_one B d).2.2 = d) := by
  rw [basic_transaction.prepare_one_eq]
  rcases hp : t.connection.manager.prepare B.db (d.identifier B) d.base.str with ⟨r, m⟩
  cases r <;> simp

/-- The fold `prepare` keeps the identity of the scope, its transaction and the
identity of its handle, and only adds to the prepared set. -/
theorem basic_transaction.prepare_keeps {τ : Type} (B : Backend τ) (t : basic_transaction τ)
    (queries : List descriptor) :
    (t.prepare B queries).2.1.self = t.self ∧
    (t.prepare B queries).2.1.transaction = t.transaction ∧
    (t.prepare B queries).2.1.connection.manager.id = t.connection.manager.id ∧
    (∀ x ∈ t.connection.manager.prepares,
      x ∈ (t.prepare B queries).2.1.connection.manager.prepares) ∧
    (t.prepare B queries).2.2.length = queries.length := by
  induction queries generalizing t with
  | nil => simp [basic_transaction.prepare]
  | cons d rest ih =>
    obtain ⟨hs, ht, hm, hr, -, -⟩ := basic_transaction.prepare_one_spec B t d
    have hid : (t.prepare_one B d).2.1.connection.manager.id = t.connection.manager.id := by
      rw [hm, connection_manager.prepare_id]
    have hmono : ∀ x ∈ t.connection.manager.prepares,
        x ∈ (t.prepare_one B d).2.1.connection.manager.prepares := by
      intro x hx
      rw [hm]
      exact connection_manager.prepare_mono _ _ _ _ _ hx
    simp only [basic_transaction.prepare]
    rcases hp : t.prepare_one B d with ⟨r, t1, d1⟩
    rw [hp] at hs ht hid hmono
    simp only at hs ht hid hmono
    cases r with
    | error e => exact ⟨hs, ht, hid, hmono, by simp⟩
    | ok u =>
      cases u
      obtain ⟨is, it, im, ir, il⟩ := ih t1
      exact ⟨is.trans hs, it.trans ht, im.trans hid, fun x hx => ir x (hmono x hx),
        by simp [il]⟩

/-- When the fold `prepare` returns without an error, every descriptor has been
bound to the scope under its identifier, and that identifier is in the prepared
set of the handle. -/
theorem basic_transaction.prepare_ok {τ : Type} (B : Backend τ) (t : basic_transaction τ)
    (queries : List descriptor) (h : (t.prepare B queries).1 = .ok ()) :
    (t.prepare B queries).2.2
      = queries.map (fun d =>
          d.emplace { query_id := d.identifier B, transaction_view := t.self }) ∧
    (∀ d ∈ queries, d.identifier B ∈ (t.prepare B queries).2.1.connection.manager.prepares) := by
  induction queries generalizing t with
  | nil => simp [basic_transaction.prepare]
  | cons d rest ih =>
    obtain ⟨hs, -, hm, hr, hb, -⟩ := basic_transaction.prepare_one_spec B t d
    simp only [basic_transaction.prepare] at h ⊢
    rcases hp : t.prepare_one B d with ⟨r, t1, d1⟩
    rw [hp] at hs hm hr hb h
    simp only at hs hm hr hb h
    cases r with
    | error e => simp at h
    | ok u =>
      cases u
      have hmem : d.identifier B ∈ t1.connection.manager.prepares := by
        rw [hm]
        exact connection_manager.prepare_ok_mem _ _ _ _ hr.symm
      simp only at h ⊢
      have ih1 := ih t1 h
      have keep := (basic_transaction.prepare_keeps B t1 rest).2.2.2.1
      refine ⟨?_, ?_⟩
      · simp [hb rfl, ih1.1, hs]
      · intro x hx
        simp only [List.mem_cons] at hx
        rcases hx with hx | hx
        · rw [hx]; exact keep _ hmem
        · exact ih1.2 x hx

/-- The constructor on a pool whose queue is `m :: rest`. -/
theorem basic_transaction.new_cons {τ : Type} (B : Backend τ) (self : Nat)
    (pool : connection_pool) (queries : List descriptor) (m : connection_manager)
    (rest : List connection_manager) (hq : pool.connections = m :: rest) :
    basic_transaction.new B self pool queries =
      match B.work.start with
      | .error e => some (.error e, { connections := rest ++ [m] }, queries)
      | .ok transaction =>
        match basic_transaction.prepare B
            { self := self, connection := { manager := m }, transaction := transaction }
            queries with
        | (.error e, t1, queries1) =>
          some (.error e, { connections := rest ++ [t1.connection.manager] }, queries1)
        | (.ok (), t1, queries1) => some (.ok t1, { connections := rest }, queries1) := by
  simp only [basic_transaction.new, basic_connection.new, connection_pool.borrow_connection, hq,
    basic_connection.destroy, connection_pool.return_connection, basic_transaction.destroy]

/-- The calls made on a scope leave its identity and its borrow untouched. -/
theorem basic_transaction.calls_keep {τ : Type} (B : Backend τ) (t : basic_transaction τ)
    (body : List scope_call) :
    (t.calls B body).2.self = t.self ∧ (t.calls B body).2.connection = t.connection := by
  induction body generalizing t with
  | nil => simp [basic_transaction.calls]
  | cons c rest ih =>
    have h1 : (t.call B c).2.self = t.self ∧ (t.call B c).2.connection = t.connection := by
      cases c with
      | exec q =>
        rcases hx : B.work.exec t.transaction q with ⟨r, w⟩
        cases r <;> simp [basic_transaction.call, basic_transaction.exec, hx]
      | commit => simp [basic_transaction.call, basic_transaction.commit]
      | abort => simp [basic_transaction.call, basic_transaction.abort]
      | invoke qm args =>
        rcases hx : B.work.exec_prepared t.transaction qm.query_id args with ⟨r, w⟩
        cases r <;> simp [basic_transaction.call, query_manager.exec_prepared, hx]
    simp only [basic_transaction.calls]
    rcases hc : t.call B c with ⟨r, t1⟩
    rw [hc] at h1
    simp only at h1
    cases r with
    | error e => exact h1
    | ok u =>
      cases u
      simp only
      exact ⟨(ih t1).1.trans h1.1, (ih t1).2.trans h1.2⟩

/-- C3: on a pool with an available handle the constructor of a scope returns;
when it reports a failure, whichever preparation failed, the borrowed handle is
already back at the end of the queue and the queue is as long as before.  The
same holds once a unit of work is over, whatever calls its body made (commit,
a commit that throws, abort, or none) and whether or not it ended with an
exception. -/
theorem guaranteed_release {τ : Type} (B : Backend τ) (self : Nat) (pool : connection_pool)
    (queries : List descriptor) (body : List scope_call) (h : pool.connections ≠ []) :
    (∃ r pool1 queries1,
      basic_transaction.new B self pool queries = some (r, pool1, queries1) ∧
      ∀ e, r = .error e →
        pool1.connections.length = pool.connections.length ∧
        ∃ m, pool1.connections = pool.connections.tail ++ [m] ∧
          pool.connections.head?.map connection_manager.id = some m.id) ∧
    (∃ r pool2 queries2,
      unit_of_work B self pool queries body = some (r, pool2, queries2) ∧
      pool2.connections.length = pool.connections.length ∧
      ∃ m, pool2.connections = pool.connections.tail ++ [m] ∧
        pool.connections.head?.map connection_manager.id = some m.id) := by
  cases hq : pool.connections with
  | nil => exact absurd hq h
  | cons m rest =>
    have hnew := basic_transaction.new_cons B self pool queries m rest hq
    simp only [unit_of_work, tx]
    rw [hnew]
    cases hs : B.work.start with
    | error e =>
      simp only
      exact ⟨⟨_, _, _, rfl, fun _ _ => ⟨by simp, m, by simp, by simp⟩⟩,
        ⟨_, _, _, rfl, by simp, m, by simp, by simp⟩⟩
    | ok w =>
      simp only
      have hk := (basic_transaction.prepare_keeps B
        { self := self, connection := { manager := m }, transaction := w } queries).2.2.1
      rcases hp : basic_transaction.prepare B
        { self := self, connection := { manager := m }, transaction := w } queries
        with ⟨r, t1, queries1⟩
      rw [hp] at hk
      simp only at hk
      cases r with
      | error e =>
        simp only
        exact ⟨⟨_, _, _, rfl, fun _ _ => ⟨by simp, t1.connection.manager, by simp, by simp [hk]⟩⟩,
          ⟨_, _, _, rfl, by simp, t1.connection.manager, by simp, by simp [hk]⟩⟩
      | ok u =>
        cases u
        simp only
        refine ⟨⟨_, _, _, rfl, fun e he => by simp at he⟩, ?_⟩
        have hc := (basic_transaction.calls_keep B t1 body).2
        refine ⟨_, _, _, rfl, ?_, (t1.calls B body).2.connection.manager, ?_, ?_⟩
        · simp [basic_transaction.destroy, basic_connection.destroy,
            connection_pool.return_connection]
        · simp [basic_transaction.destroy, basic_connection.destroy,
            connection_pool.return_connection]
        · simp [hc, hk]

/-- The second of three preparations fails on `sample_db`: handle 0 is back at
the end of the queue, with the first statement prepared. -/
theorem guaranteed_release_witness :
    sample_pool.connections ≠ [] ∧
    basic_transaction.new sample_backend 1 sample_pool sample_queries_failing
      = some (.error "syntax error at end of input",
          { connections := (List.range' 1 7).map connection_manager.new ++
              [{ id := 0, prepares := ["a"],
                 connection := { issued := [("a", "SELECT 1"), ("0", "")] } }] },
          [.named { str := "SELECT 1", name := "a",
                    manager := some { query_id := "a", transaction_view := 1 } },
            .plain (query.new ""), .named (named_query.new "c" "SELECT 3")]) ∧
    (∃ r pool2 queries2,
      unit_of_work sample_backend 1 sample_pool sample_queries_failing [.commit]
        = some (r, pool2, queries2) ∧
      pool2.connections.length = sample_pool.connections.length ∧
      ∃ m, pool2.connections = sample_pool.connections.tail ++ [m] ∧
        sample_pool.connections.head?.map connection_manager.id = some m.id) :=
  ⟨by decide, by decide,
   (guaranteed_release sample_backend 1 sample_pool sample_queries_failing [.commit]
      (by decide)).2⟩

/-- C10: when the constructor of a scope returns a scope, that scope holds the
handle that was at the front of the queue, the descriptors are as many as
before, and each of them is bound to this scope under its identifier, which is
in the prepared set of the handle: the hexadecimal rendering of the hash of the
text for an anonymous query, the name itself for a named query. -/
theorem construction_postcondition {τ : Type} (B : Backend τ) (self : Nat)
    (pool pool1 : connection_pool) (queries queries1 : List descriptor)
    (t : basic_transaction τ)
    (h : basic_transaction.new B self pool queries = some (.ok t, pool1, queries1)) :
    t.self = self ∧
    pool.connections.head?.map connection_manager.id = some t.connection.manager.id ∧
    pool1.connections = pool.connections.tail ∧
    queries1.length = queries.length ∧
    (∀ (i : Nat) (q : query), queries[i]? = some (.plain q) →
      queries1[i]? = some (.plain
        { q with
          manager := some
            { query_id := format_X (B.hash q.str % SIZE_T_RANGE), transaction_view := self } }) ∧
      format_X (B.hash q.str % SIZE_T_RANGE) ∈ t.connection.manager.prepares) ∧
    (∀ (i : Nat) (q : named_query), queries[i]? = some (.named q) →
      queries1[i]? = some (.named
        { q with manager := some { query_id := q.name, transaction_view := self } }) ∧
      q.name ∈ t.connection.manager.prepares) := by
  cases hq : pool.connections with
  | nil =>
    simp [basic_transaction.new, basic_connection.new, connection_pool.borrow_connection, hq]
      at h
  | cons m rest =>
    rw [basic_transaction.new_cons B self pool queries m rest hq] at h
    cases hs : B.work.start with
    | error e => simp [hs] at h
    | ok w =>
      rw [hs] at h
      simp only at h
      have hk := basic_transaction.prepare_keeps B
        { self := self, connection := { manager := m }, transaction := w } queries
      have hok := basic_transaction.prepare_ok B
        { self := self, connection := { manager := m }, transaction := w } queries
      rcases hp : basic_transaction.prepare B
        { self := self, connection := { manager := m }, transaction := w } queries
        with ⟨r, t1, qs1⟩
      rw [hp] at h hk hok
      simp only at h hk hok
      cases r with
      | error e => simp at h
      | ok u =>
        cases u
        simp only [Option.some.injEq, Prod.mk.injEq, Except.ok.injEq] at h
        obtain ⟨ht, hpool, hqs⟩ := h
        subst ht hpool hqs
        obtain ⟨hmap, hmem⟩ := hok rfl
        refine ⟨hk.1, by simp [hk.2.2.1], by simp, hk.2.2.2.2, ?_, ?_⟩
        · intro i q hi
          refine ⟨?_, hmem _ (List.getElem?_mem hi)⟩
          rw [hmap, List.getElem?_map, hi]
          rfl
        · intro i q hi
          refine ⟨?_, hmem _ (List.getElem?_mem hi)⟩
          rw [hmap, List.getElem?_map, hi]
          rfl

/-- The two sample descriptors on the pool of `sample_db`: the scope holds
handle 0 with both identifiers prepared. -/
theorem construction_postcondition_witness :
    basic_transaction.new sample_backend 7 sample_pool sample_queries
      = some (.ok sample_scope, { connections := (List.range' 1 7).map connection_manager.new },
          sample_queries_bound) ∧
    sample_scope.connection.manager.prepares = ["8", "get_users"] ∧
    sample_queries_bound.length = sample_queries.length :=
  ⟨by decide, by decide,
   (construction_postcondition sample_backend 7 sample_pool
      { connections := (List.range' 1 7).map connection_manager.new }
      sample_queries sample_queries_bound sample_scope (by decide)).2.2.2.1⟩

/-- C7, as the code has it: the identifier of an anonymous descriptor is the
hash of its text in hexadecimal without padding.  Its length is the number of
hexadecimal digits of the hash value, between 1 and 16, and two texts get
identifiers of the same length exactly when their hash values have the same
number of digits; texts of equal hash value get the same identifier. -/
theorem identifier_is_unpadded_hex {τ : Type} (B : Backend τ) (q q2 : query) :
    basic_transaction.query_id B q = format_X (B.hash q.str % SIZE_T_RANGE) ∧
    (basic_transaction.query_id B q).length = Nat.log 16 (B.hash q.str % SIZE_T_RANGE) + 1 ∧
    1 ≤ (basic_transaction.query_id B q).length ∧
    (basic_transaction.query_id B q).length ≤ 16 ∧
    ((basic_transaction.query_id B q).length = (basic_transaction.query_id B q2).length ↔
      Nat.log 16 (B.hash q.str % SIZE_T_RANGE) = Nat.log 16 (B.hash q2.str % SIZE_T_RANGE)) := by
  have hlen : ∀ x : query, (basic_transaction.query_id B x).length
      = Nat.log 16 (B.hash x.str % SIZE_T_RANGE) + 1 := fun x => format_X_length _
  have hlt : B.hash q.str % SIZE_T_RANGE < 2 ^ 64 := Nat.mod_lt _ (by decide)
  refine ⟨rfl, hlen q, by rw [hlen q]; omega, format_X_length_le _ hlt, ?_⟩
  rw [hlen q, hlen q2]
  omega

/-- C7 as stated fails: with the length of the text as hash function, the text
`SELECT 1` gets the one-character identifier `8` and the text
`SELECT 1 FROM t1` the two-character identifier `10`. -/
theorem identifier_width_varies :
    basic_transaction.query_id sample_backend (query.new "SELECT 1") = "8" ∧
    basic_transaction.query_id sample_backend (query.new "SELECT 1 FROM t1") = "10" ∧
    (basic_transaction.query_id sample_backend (query.new "SELECT 1")).length ≠
      (basic_transaction.query_id sample_backend (query.new "SELECT 1 FROM t1")).length := by
  decide

/-- C9: a `query` or `named_query` whose `manager` is empty throws from `exec`
and from `operator()`, for every argument list and whatever transaction scope
is around; the scope is left exactly as it was, so nothing is executed, and no
result is returned. -/
theorem unbound_invocation_throws {τ : Type} (B : Backend τ) (str name : String)
    (args : List String) (t : basic_transaction τ) :
    query.exec B { str := str, manager := none } args t
      = (.error "attempt to execute a query without connection with a transaction", t) ∧
    query.call B { str := str, manager := none } args t
      = (.error "attempt to execute a query without connection with a transaction", t) ∧
    named_query.exec B { str := str, manager := none, name := name } args t
      = (.error "attempt to execute a query without connection with a transaction", t) ∧
    named_query.call B { str := str, manager := none, name := name } args t
      = (.error "attempt to execute a query without connection with a transaction", t) ∧
    (query.new str).manager = none ∧
    (named_query.new name str).manager = none :=
  ⟨rfl, rfl, rfl, rfl, rfl, rfl⟩

/-- C8, as the code has it: `basic_transaction` keeps no state of its own.
`commit`, `abort`, `exec` and the invocation of a bound query hand the call to
the underlying transaction, return its outcome and keep the state it leaves;
so a call made after `commit` or `abort` fails exactly when the underlying
transaction rejects it in the state the earlier call left. -/
theorem scope_calls_are_forwarded {τ : Type} (B : Backend τ) (t : basic_transaction τ)
    (sql str : String) (qm : query_manager) (args : List String) :
    t.commit B = ((B.work.commit t.transaction).1,
      { t with transaction := (B.work.commit t.transaction).2 }) ∧
    t.abort B = ((B.work.abort t.transaction).1,
      { t with transaction := (B.work.abort t.transaction).2 }) ∧
    t.exec B sql = ((B.work.exec t.transaction sql).1,
      { t with transaction := (B.work.exec t.transaction sql).2 }) ∧
    query.exec B { str := str, manager := some qm } args t
      = ((B.work.exec_prepared t.transaction qm.query_id args).1,
        { t with transaction := (B.work.exec_prepared t.transaction qm.query_id args).2 }) ∧
    ((t.commit B).2.commit B).1 = (B.work.commit (B.work.commit t.transaction).2).1 ∧
    ((t.commit B).2.abort B).1 = (B.work.abort (B.work.commit t.transaction).2).1 ∧
    ((t.commit B).2.exec B sql).1 = (B.work.exec (B.work.commit t.transaction).2 sql).1 ∧
    (query.exec B { str := str, manager := some qm } args (t.commit B).2).1
      = (B.work.exec_prepared (B.work.commit t.transaction).2 qm.query_id args).1 ∧
    ((t.abort B).2.commit B).1 = (B.work.commit (B.work.abort t.transaction).2).1 ∧
    ((t.abort B).2.abort B).1 = (B.work.abort (B.work.abort t.transaction).2).1 ∧
    ((t.abort B).2.exec B sql).1 = (B.work.exec (B.work.abort t.transaction).2 sql).1 ∧
    (query.exec B { str := str, manager := some qm } args (t.abort B).2).1
      = (B.work.exec_prepared (B.work.abort t.transaction).2 qm.query_id args).1 :=
  ⟨rfl, rfl, rfl, rfl, rfl, rfl, rfl, rfl, rfl, rfl, rfl, rfl⟩

/-- C8 as stated fails: on `sample_backend`, whose transaction accepts a
repeated commit and a repeated abort, a second `commit` after `commit` and a
second `abort` after `abort` on `sample_scope` return without an error. -/
theorem second_commit_returns :
    (sample_scope.commit sample_backend).1 = .ok () ∧
    ((sample_scope.commit sample_backend).2.commit sample_backend).1 = .ok () ∧
    (sample_scope.abort sample_backend).1 = .ok () ∧
    ((sample_scope.abort sample_backend).2.abort sample_backend).1 = .ok () := by
  decide

/-- The constructor with one anonymous descriptor, when it returns a scope:
what it did to the handle `m` at the front of the queue. -/
theorem basic_transaction.new_plain_ok {τ : Type} (B : Backend τ) (self : Nat)
    (pool pool1 : connection_pool) (q : query) (queries1 : List descriptor)
    (t : basic_transaction τ) (m : connection_manager)
    (hm : pool.connections.head? = some m)
    (h : basic_transaction.new B self pool [.plain q] = some (.ok t, pool1, queries1)) :
    t.connection.manager
      = (m.prepare B.db (basic_transaction.query_id B q) q.str).2 ∧
    (m.prepare B.db (basic_transaction.query_id B q) q.str).1 = .ok () := by
  cases hq : pool.connections with
  | nil => simp [hq] at hm
  | cons m1 rest =>
    rw [hq] at hm
    simp only [List.head?_cons, Option.some.injEq] at hm
    subst hm
    rw [basic_transaction.new_cons B self pool _ m1 rest hq] at h
    cases hs : B.work.start with
    | error e => simp [hs] at h
    | ok w =>
      rw [hs] at h
      simp only [basic_transaction.prepare] at h
      obtain ⟨-, -, hmgr, hr, -, -⟩ := basic_transaction.prepare_one_spec B
        { self := self, connection := { manager := m1 }, transaction := w } (.plain q)
      rcases hp : basic_transaction.prepare_one B
        { self := self, connection := { manager := m1 }, transaction := w } (.plain q)
        with ⟨r, t1, d1⟩
      rw [hp] at h hmgr hr
      simp only [descriptor.identifier, descriptor.base] at h hmgr hr
      cases r with
      | error e => simp at h
      | ok u =>
        cases u
        simp only [Option.some.injEq, Prod.mk.injEq, Except.ok.injEq] at h
        rw [← h.1]
        exact ⟨hmgr, hr.symm⟩

/-- C6, as the code has it: two anonymous descriptors of one text resolve to the
same identifier.  When a scope is constructed with such a descriptor on a
handle, and later a second scope is constructed with such a descriptor on that
same handle, the second construction issues no prepare command and leaves the
handle as it was; the first one issued exactly the one command for that
identifier when the handle had not prepared it before, and none when it had. -/
theorem anonymous_text_prepared_at_most_once {τ : Type} (B : Backend τ) (self1 self2 : Nat)
    (pool pool1 pool2 pool3 : connection_pool) (text : String)
    (manager1 manager2 : Option query_manager) (queries1 queries2 : List descriptor)
    (t1 t2 : basic_transaction τ) (m : connection_manager)
    (hm : pool.connections.head? = some m)
    (h1 : basic_transaction.new B self1 pool [.plain { str := text, manager := manager1 }]
      = some (.ok t1, pool1, queries1))
    (hsame : pool2.connections.head? = some t1.connection.manager)
    (h2 : basic_transaction.new B self2 pool2 [.plain { str := text, manager := manager2 }]
      = some (.ok t2, pool3, queries2)) :
    basic_transaction.query_id B { str := text, manager := manager1 }
      = basic_transaction.query_id B { str := text, manager := manager2 } ∧
    t2.connection.manager = t1.connection.manager ∧
    (basic_transaction.query_id B { str := text, manager := manager1 } ∉ m.prepares →
      t2.connection.manager.connection.issued = m.connection.issued ++
        [(basic_transaction.query_id B { str := text, manager := manager1 }, text)]) ∧
    (basic_transaction.query_id B { str := text, manager := manager1 } ∈ m.prepares →
      t2.connection.manager.connection.issued = m.connection.issued) := by
  obtain ⟨e1, r1⟩ := basic_transaction.new_plain_ok B self1 pool pool1 _ queries1 t1 m hm h1
  obtain ⟨e2, -⟩ := basic_transaction.new_plain_ok B self2 pool2 pool3 _ queries2 t2 _ hsame h2
  have hid : basic_transaction.query_id B { str := text, manager := manager2 }
      = basic_transaction.query_id B { str := text, manager := manager1 } := rfl
  simp only at e1 r1 e2
  rw [hid] at e2
  have hmem : basic_transaction.query_id B { str := text, manager := manager1 }
      ∈ t1.connection.manager.prepares := by
    rw [e1]
    exact connection_manager.prepare_ok_mem _ _ _ _ r1
  have hsecond : t2.connection.manager = t1.connection.manager := by
    rw [e2, connection_manager.prepare_known _ _ _ _ hmem]
  refine ⟨rfl, hsecond, ?_, ?_⟩
  · intro hn
    rw [hsecond, e1]
    rw [connection_manager.prepare_fresh _ _ _ _ hn] at r1 ⊢
    split at r1
    · simp at r1
    · rename_i heq
      simp [heq]
  · intro hn
    rw [hsecond, e1, connection_manager.prepare_known _ _ _ _ hn]

/-- Two scopes for the text `SELECT 1` on the fresh handle 0 of `sample_db`,
the only one in the queue: the second leaves the handle as the first did. -/
theorem anonymous_text_prepared_at_most_once_witness :
    basic_transaction.new sample_backend 1 { connections := [connection_manager.new 0] }
        [.plain { str := "SELECT 1", manager := none }]
      = some (.ok sample_scope_first, { connections := [] },
          [.plain { str := "SELECT 1",
                    manager := some { query_id := "8", transaction_view := 1 } }]) ∧
    basic_transaction.new sample_backend 2 sample_pool_used
        [.plain { str := "SELECT 1", manager := none }]
      = some (.ok sample_scope_second, { connections := [] },
          [.plain { str := "SELECT 1",
                    manager := some { query_id := "8", transaction_view := 2 } }]) ∧
    sample_scope_second.connection.manager = sample_scope_first.connection.manager :=
  ⟨by decide, by decide,
   (anonymous_text_prepared_at_most_once sample_backend 1 2
      { connections := [connection_manager.new 0] } { connections := [] }
      sample_pool_used { connections := [] } "SELECT 1" none none
      [.plain { str := "SELECT 1", manager := some { query_id := "8", transaction_view := 1 } }]
      [.plain { str := "SELECT 1", manager := some { query_id := "8", transaction_view := 2 } }]
      sample_scope_first sample_scope_second (connection_manager.new 0)
      (by decide) (by decide) (by decide) (by decide)).2.1⟩

/-- C6 as stated fails on a handle that has already prepared the text: the two
scopes constructed one after the other on that handle both succeed and issue no
prepare command at all, not one. -/
theorem two_scopes_on_prepared_handle_issue_none :
    sample_pool_used.connections
      = [{ id := 0, prepares := ["8"], connection := { issued := [("8", "SELECT 1")] } }] ∧
    unit_of_work sample_backend 2 sample_pool_used
        [.plain { str := "SELECT 1", manager := none }] [.commit]
      = some (.ok (), sample_pool_used,
          [.plain { str := "SELECT 1",
                    manager := some { query_id := "8", transaction_view := 2 } }]) ∧
    unit_of_work sample_backend 3 sample_pool_used
        [.plain { str := "SELECT 1", manager := none }] [.commit]
      = some (.ok (), sample_pool_used,
          [.plain { str := "SELECT 1",
                    manager := some { query_id := "8", transaction_view := 3 } }]) := by
  decide

end cp
